import Mathlib

/-
Verification development for the kacer-bot stream bridge (src/bot.py).

Modelling conventions:
- Python strings are modelled as lists of characters (`Str`).
- Regex character classes (\s, \d, \w) and str.lower()/str.strip() are
  modelled over their ASCII ranges; every call site in the program feeds
  these helpers line-oriented text for which this is the behaviour of the
  Python originals on ASCII input.
- Event-loop clock readings are modelled as rationals; each processing
  step receives the current time as an explicit argument.
- Child-process I/O is explicit: functions return, next to the updated
  session state, the list of strings written to the child's stdin and the
  list of chat messages sent out.
- Lines handed to the classifier never contain a line feed (the reader
  splits on it first); the menu-item regex model relies on this at the
  point noted below.
-/

abbrev Str := List Char

/-- ASCII model of Python str whitespace (space, TAB, LF, CR, VT, FF). -/
def isPySpace (c : Char) : Bool :=
  c == ' ' || c == '\t' || c == '\n' || c == '\r' || c == '\x0b' || c == '\x0c'

/-- Word character for the regex \b word boundary: [A-Za-z0-9_]. -/
def isWordChar (c : Char) : Bool :=
  c.isAlpha || c.isDigit || c == '_'

/-- Python str.lower(), ASCII model. -/
def pyLower (s : Str) : Str := s.map Char.toLower

/-- Python str.strip() with no argument: drop whitespace at both ends. -/
def pyStrip (s : Str) : Str :=
  ((s.dropWhile isPySpace).reverse.dropWhile isPySpace).reverse

/-- Python str.rstrip(cs): drop all trailing characters drawn from cs. -/
def pyRStrip (cs : List Char) (s : Str) : Str :=
  (s.reverse.dropWhile (fun c => cs.contains c)).reverse

/-- Python substring containment, `needle in hay`. -/
def strContains : Str → Str → Bool
  | [], needle => needle.isEmpty
  | c :: t, needle => needle.isPrefixOf (c :: t) || strContains t needle

/-- MENU_ITEM_RE = `^\s*(\d+)\.\s*(.+)$` applied with re.match.
Group 1 is the maximal leading digit run (after optional whitespace),
then a literal dot, then `\s*(.+)`: group 2 starts at the first
non-whitespace character when one exists; when the tail is whitespace-only
the greedy `\s*` backtracks one character so group 2 is the last
character.  (`.` cannot match a line feed; callers pass lines already
split on line feeds, so no `.`/LF interaction arises.) -/
def matchMenuItem (line : Str) : Option (Str × Str) :=
  let r1 := line.dropWhile isPySpace
  let digits := r1.takeWhile Char.isDigit
  if digits.isEmpty then none
  else
    match r1.dropWhile Char.isDigit with
    | '.' :: r2 =>
      let g2 := r2.dropWhile isPySpace
      if !g2.isEmpty then some (digits, g2)
      else if !r2.isEmpty then some (digits, [r2.getLastD ' '])
      else none
    | _ => none

/-- Keywords of PROMPT_KEYWORDS_RE (already lower-case). -/
def promptKeywords : List Str :=
  [("pilih").toList, ("enter").toList, ("family").toList, ("kode").toList,
   ("otp").toList, ("nomor").toList, ("number").toList, ("pin").toList,
   ("masuk").toList]

/-- A keyword match starting exactly at the head of s, with \b satisfied on
both sides; prev is the character just before this position (none at the
start of the string). -/
def kwHitAt (prev : Option Char) (s : Str) : Bool :=
  (match prev with
   | none => true
   | some c => !isWordChar c) &&
  promptKeywords.any (fun kw =>
    kw.isPrefixOf s &&
    (match (s.drop kw.length).head? with
     | none => true
     | some c => !isWordChar c))

/-- Scan every position of the string for a keyword hit. -/
def kwSearchFrom : Option Char → Str → Bool
  | prev, [] => kwHitAt prev []
  | prev, c :: t => kwHitAt prev (c :: t) || kwSearchFrom (some c) t

/-- PROMPT_KEYWORDS_RE.search: case-insensitive word-bounded keyword hit. -/
def promptKeywordHit (s : Str) : Bool := kwSearchFrom none (pyLower s)

/-- ENDS_WITH_COLON_RE = `.+:\s*$` applied with re.match: some non-empty
LF-free prefix, then a colon, then only whitespace to the end. -/
def endsWithColonHit (s : Str) : Bool :=
  let t := (s.reverse.dropWhile isPySpace).reverse
  decide (2 ≤ t.length) && t.getLastD ' ' == ':' && t.dropLast.all (fun c => c != '\n')

/-- ONLY_DIGITS_RE = `^\d{1,8}$` applied with re.match. -/
def onlyDigitsHit (s : Str) : Bool :=
  !s.isEmpty && decide (s.length ≤ 8) && s.all Char.isDigit

/-- Python int(s) restricted to the shapes that can reach it inside
normalize_choice: the argument there is already stripped, so parsing
succeeds exactly on an all-digit string. -/
def pyParseNat (s : Str) : Option Nat :=
  if !s.isEmpty && s.all Char.isDigit then
    some (s.foldl (fun a c => a * 10 + (c.toNat - 48)) 0)
  else none

/-- normalize_choice from bot.py: strip, keep "00", map a two-character
leading-zero code through str(int(.)), otherwise return the stripped
string. -/
def normalize_choice (num : Str) : Str :=
  let n := pyStrip num
  if n = ("00").toList then ("00").toList
  else if n.length = 2 ∧ n.headD ' ' = '0' then
    match pyParseNat n with
    | some v => Nat.toDigits 10 v
    | none => n
  else n

/-- Label test of the first loop of find_back_num. -/
def isBackLabel (p : Str × Str) : Bool :=
  let low := pyLower p.2
  strContains low (("kemb").toList) || strContains low (("kembali").toList) ||
  strContains low (("utama").toList) || strContains low (("back").toList)

/-- Code test of the second loop of find_back_num. -/
def isZeroCode (p : Str × Str) : Bool :=
  p.1 == ("00").toList || p.1 == ("0").toList

/-- Code test of the third loop of find_back_num. -/
def isCode99 (p : Str × Str) : Bool :=
  p.1 == ("99").toList

/-- find_back_num from bot.py: each for-loop with an early return is a
first-match search. -/
def find_back_num (menu_items : List (Str × Str)) : Str :=
  match menu_items.find? isBackLabel with
  | some p => p.1
  | none =>
    match menu_items.find? isZeroCode with
    | some p => p.1
    | none =>
      match menu_items.find? isCode99 with
      | some p => p.1
      | none =>
        match menu_items with
        | p :: _ => p.1
        | [] => ("99").toList

def TG_MAX : Nat := 3800

/-- Python text.rfind('\n', 0, e) on the suffix model: the largest index
i < e carrying a line feed, none when there is no such index. -/
def rfindNL (t : Str) : Nat → Option Nat
  | 0 => none
  | e + 1 => if t.getD e ' ' == '\n' then some e else rfindNL t e

/-- One iteration of the send_long_message loop, in coordinates relative
to the current start offset: the exclusive end of the next chunk. -/
def chunkEnd (t : Str) : Nat :=
  let e0 := min t.length TG_MAX
  if e0 < t.length then
    match rfindNL t e0 with
    | some i => if 0 < i then i + 1 else e0
    | none => e0
  else e0

/-- The list of chunks send_long_message sends for a given text. -/
def send_long_message_chunks (t : Str) : List Str :=
  if h : t.length = 0 then []
  else
    t.take (chunkEnd t) :: send_long_message_chunks (t.drop (chunkEnd t))
termination_by t.length
decreasing_by
  simp only [List.length_drop]
  apply Nat.sub_lt (Nat.pos_of_ne_zero h)
  unfold chunkEnd
  dsimp only
  have he0 : 0 < min t.length TG_MAX := by
    apply Nat.lt_min.mpr
    exact ⟨Nat.pos_of_ne_zero h, by norm_num [TG_MAX]⟩
  split
  · split
    · split
      · omega
      · exact he0
    · exact he0
  · exact he0

/-- Model of an asyncio child process handle: only the returncode field is
observed by the program (None while running). -/
structure ProcHandle where
  returncode : Option Int
deriving DecidableEq

/-- Model of the Session dataclass of bot.py.  The stdin writer is
modelled by its presence; `pending` is the `partial` fragment
accumulator; task handles are modelled by their presence. -/
structure Session where
  proc : Option ProcHandle
  stdin_writer : Bool
  pending : Str
  buffer_lines : List Str
  menu_items : List (Str × Str)
  last_output_time : ℚ
  awaiting_input : Bool
  last_prompt_time : Option ℚ
  input_prompt_text : Option Str
  reader_task : Bool
  flusher_task : Bool
deriving DecidableEq

/-- Session.is_running from bot.py. -/
def Session.is_running (s : Session) : Bool :=
  match s.proc with
  | some p => p.returncode.isNone
  | none => false

/-- Chat-side messages the modelled handlers can emit. -/
inductive BotMsg
  | infoNoTool
  | stopped
  | deliveryFailed
  | toolNotRunning
deriving DecidableEq

/-- Actions stop_tool performs on the child process. -/
inductive StopAction
  | terminate
  | kill
deriving DecidableEq

/-- Model of _process_line from bot.py: classify one line.  Returns the updated
session and the list of strings written to the child's stdin.  A failed
stdin write is swallowed by the source; the write is still attempted, so
it is recorded whenever a writer is present. -/
def processLine (s : Session) (now : ℚ) (line : Str) (isFrag : Bool) : Session × List Str :=
  if line.isEmpty then (s, [])
  else
    let low := pyLower line
    if strContains low (("press enter to continue").toList) ||
       strContains low (("press any key to continue").toList) then
      if s.stdin_writer then (s, [[ '\n' ]]) else (s, [])
    else
      match matchMenuItem line with
      | some g =>
        ({s with menu_items := s.menu_items ++ [(pyStrip g.1, pyStrip g.2)]}, [])
      | none =>
        let s1 := {s with buffer_lines := s.buffer_lines ++ [line], last_output_time := now}
        if isFrag || endsWithColonHit line || promptKeywordHit line || onlyDigitsHit line then
          ({s1 with awaiting_input := true, last_prompt_time := some now,
                    input_prompt_text := some line}, [])
        else (s1, [])

/-- partial.split('\n', 1): the text before the first line feed and the
text after it, or none when there is no line feed. -/
def splitFirstNL : Str → Option (Str × Str)
  | [] => none
  | c :: t =>
    if c == '\n' then some ([], t)
    else (splitFirstNL t).map (fun p => (c :: p.1, p.2))

/-- The `while "\n" in session.partial` loop of _reader_loop: repeatedly
split off the first complete line, set the accumulator to the remainder,
strip trailing CRs from the line and classify it.  The remainder is
passed both as the session's pending field and as an explicit argument
(the latter drives termination); processChunk calls it with the two in
sync. -/
def drainLines (pend : Str) (s : Session) (now : ℚ) : Session × List Str :=
  match h : splitFirstNL pend with
  | none => (s, [])
  | some lp =>
    let r1 := processLine {s with pending := lp.2} now (pyRStrip [ '\r' ] lp.1) false
    let r2 := drainLines lp.2 r1.1 now
    (r2.1, r1.2 ++ r2.2)
termination_by pend.length
decreasing_by
  have hlt : ∀ (u : Str) (p : Str × Str), splitFirstNL u = some p → p.2.length < u.length := by
    intro u
    induction u with
    | nil => intro p hp; simp [splitFirstNL] at hp
    | cons c t ih =>
      intro p hp
      simp only [splitFirstNL] at hp
      by_cases hc : (c == '\n') = true
      · rw [if_pos hc] at hp
        injection hp with hp
        rw [← hp]
        simp
      · rw [if_neg hc] at hp
        cases hmap : splitFirstNL t with
        | none => rw [hmap] at hp; simp at hp
        | some q =>
          rw [hmap] at hp
          simp only [Option.map_some'] at hp
          injection hp with hp
          have hq := ih q hmap
          rw [← hp]
          simp only [List.length_cons]
          omega
  exact hlt pend lp h

/-- One whole chunk step of _reader_loop: append the decoded chunk to the
fragment accumulator, stamp the output time, drain complete lines, then
run the partial-prompt heuristic on the stripped leftover. -/
def processChunk (s : Session) (now : ℚ) (chunk : Str) : Session × List Str :=
  let s0 := {s with pending := s.pending ++ chunk, last_output_time := now}
  let d := drainLines s0.pending s0 now
  let p := pyStrip d.1.pending
  if !p.isEmpty && (endsWithColonHit p || promptKeywordHit p || onlyDigitsHit p) then
    let r2 := processLine d.1 now p true
    ({r2.1 with pending := []}, d.2 ++ r2.2)
  else (d.1, d.2)

/-- Python text.split('\n') written structurally: the list of complete
lines (all parts before the last) and the trailing remainder. -/
def splitParts : Str → List Str × Str
  | [] => ([], [])
  | c :: t =>
    let r := splitParts t
    if c == '\n' then (([] : Str) :: r.1, r.2)
    else
      match r.1 with
      | [] => ([], c :: r.2)
      | l :: ls => ((c :: l) :: ls, r.2)

/-- Classify a list of already-split lines in order (CRs stripped as in
the reader loop), threading the session state. -/
def processLinesFold (now : ℚ) : Session → List Str → Session × List Str
  | s, [] => (s, [])
  | s, l :: ls =>
    let r1 := processLine s now (pyRStrip [ '\r' ] l) false
    let r2 := processLinesFold now r1.1 ls
    (r2.1, r1.2 ++ r2.2)

def BUFFER_FLUSH_IDLE : ℚ := 5

def FLUSHER_INTERVAL : ℚ := 1 / 2

/-- The clock reading at the k-th wake-up of the flusher loop started at
t0: the loop sleeps FLUSHER_INTERVAL before every check. -/
def flusherCheckTime (t0 : ℚ) (k : ℕ) : ℚ :=
  t0 + ((k : ℚ) + 1) * FLUSHER_INTERVAL

/-- One line of the rendered menu block: raw code, dot, raw label. -/
def menuLine (p : Str × Str) : Str :=
  p.1 ++ (". ").toList ++ p.2

/-- Python '\n'.join. -/
def joinNL (ls : List Str) : Str := List.intercalate [ '\n' ] ls

def menuHeader : Str := ("📋 Menu:\n").toList

/-- Model of _flush_buffer_and_menu from bot.py: under the send lock, return
unless something is buffered; otherwise drain both buffers, compose the
combined message and hand it to send_long_message.  The result records
the outbound text (none when nothing is sent) and whether the menu
keyboard accompanies it. -/
def flush_buffer_and_menu (s : Session) : Session × Option (Str × Bool) :=
  if s.buffer_lines.isEmpty ∧ s.menu_items.isEmpty then (s, none)
  else
    let lines := s.buffer_lines
    let menu := s.menu_items
    let s2 := {s with buffer_lines := [], menu_items := []}
    let text := pyStrip (joinNL lines)
    if !menu.isEmpty then
      let menuText := joinNL (menu.map menuLine)
      let full := if !text.isEmpty then text ++ ("\n\n").toList ++ menuHeader ++ menuText
                  else menuHeader ++ menuText
      (s2, some (full, true))
    else
      if !text.isEmpty then (s2, some (text, false)) else (s2, none)

/-- One wake-up of _flusher_loop: flush only when something is buffered
and the elapsed time since the last output reaches the idle threshold. -/
def flusher_pass (s : Session) (now : ℚ) : Session × Option (Str × Bool) :=
  if s.buffer_lines ≠ [] ∨ s.menu_items ≠ [] then
    if now - s.last_output_time ≥ BUFFER_FLUSH_IDLE then flush_buffer_and_menu s
    else (s, none)
  else (s, none)

/-- Button label truncation from menu_kb_from_items. -/
def truncLabel (label : Str) : Str :=
  if label.length ≤ 28 then label else label.take 25 ++ ("...").toList

/-- One inline button of menu_kb_from_items: (shown text, callback
payload).  Both sides go through normalize_choice. -/
def menu_button (num label : Str) : Str × Str :=
  ((normalize_choice num) ++ (". ").toList ++ truncLabel label,
   ("menu_choice|").toList ++ normalize_choice num)

/-- The per-entry buttons of menu_kb_from_items (the pairing into rows
and the appended back/cancel row do not affect the displayed or
transmitted codes of the entries). -/
def menu_kb_buttons (items : List (Str × Str)) : List (Str × Str) :=
  items.map (fun p => menu_button p.1 p.2)

/-- Callback payload of the back button appended by menu_kb_from_items. -/
def menu_back_payload (items : List (Str × Str)) : Str :=
  ("menu_back|").toList ++ normalize_choice (find_back_num items)

/-- Model of _cancel_tasks from bot.py: cancel both tasks, clear the process and
writer handles. -/
def cancel_tasks (s : Session) : Session :=
  {s with reader_task := false, flusher_task := false, proc := none, stdin_writer := false}

/-- stop_tool from bot.py.  When running: terminate, wait up to the grace
period (kill on timeout — exitsInGrace says whether the child exited in
time), then cancel tasks and report; otherwise only an informational
message is sent and the state is left untouched. -/
def stop_tool (s : Session) (exitsInGrace : Bool) : Session × List StopAction × BotMsg :=
  if s.is_running then
    (cancel_tasks s,
     (if exitsInGrace then [StopAction.terminate] else [StopAction.terminate, StopAction.kill]),
     BotMsg.stopped)
  else (s, [], BotMsg.infoNoTool)

/-- text_handler from bot.py: forward stripped free text plus a newline
to the child when one is running; writeOk models whether the stdin
write/drain succeeds.  Returns (state, stdin writes, chat replies). -/
def text_handler (s : Session) (txt : Str) (writeOk : Bool) : Session × List Str × List BotMsg :=
  let text := pyStrip txt
  if s.is_running && s.stdin_writer then
    if writeOk then
      ({s with awaiting_input := false, last_prompt_time := none, input_prompt_text := none},
       [text ++ [ '\n' ]], [])
    else (s, [], [BotMsg.deliveryFailed])
  else (s, [], [BotMsg.toolNotRunning])

/-- The menu_choice branch of callback_handler from bot.py: forward the
(already normalized) code plus a newline when a tool is running; a
failed write is silently swallowed, and without a running tool nothing
at all happens. -/
def menu_choice_handler (s : Session) (num : Str) (writeOk : Bool) :
    Session × List Str × List BotMsg :=
  if s.is_running && s.stdin_writer then
    if writeOk then
      ({s with awaiting_input := false, last_prompt_time := none, input_prompt_text := none},
       [num ++ [ '\n' ]], [])
    else (s, [], [])
  else (s, [], [])

/-- The session state right after start_tool: fresh buffers, running
process, live writer, both tasks scheduled. -/
def startedSession : Session :=
  { proc := some { returncode := none }, stdin_writer := true, pending := [],
    buffer_lines := [], menu_items := [], last_output_time := 0,
    awaiting_input := false, last_prompt_time := none, input_prompt_text := none,
    reader_task := true, flusher_task := true }

def IsLastNLIdx (t : Str) (e i : ℕ) : Prop :=
  i < e ∧ t.getD i ' ' = '\n' ∧ ∀ j, i < j → j < e → t.getD j ' ' ≠ '\n'

def deadSession : Session :=
  { proc := some { returncode := some 0 }, stdin_writer := true, pending := [],
    buffer_lines := [], menu_items := [], last_output_time := 0,
    awaiting_input := false, last_prompt_time := none, input_prompt_text := none,
    reader_task := true, flusher_task := true }

def c6Line : Str := ("Press ENTER to continue...").toList

def c2Sess : Session :=
  { startedSession with buffer_lines := [("hello").toList] }

def c7Items : List (Str × Str) :=
  [((("00").toList), (("Tampil data").toList)),
   ((("9").toList), (("Kembali").toList))]

def c9Items : List (Str × Str) := [((("01").toList), (("Foo").toList))]

def c9Sess : Session := { startedSession with menu_items := c9Items }

def c10Sess : Session := { startedSession with buffer_lines := [[ ' ' ], []] }

def c3T : Str := ("hi\nthere").toList

def c3U : Str := 'a' :: '\n' :: List.replicate 3799 'b'

theorem processLine_pending (s : Session) (now : ℚ) (l : Str) (f : Bool) :
    (processLine s now l f).1.pending = s.pending := by
  unfold processLine
  dsimp only
  split
  · rfl
  · split
    · split <;> rfl
    · split
      · rfl
      · split <;> rfl

theorem processLine_set_pending (s : Session) (now : ℚ) (l : Str) (f : Bool) (x : Str) :
    processLine {s with pending := x} now l f =
      ({(processLine s now l f).1 with pending := x}, (processLine s now l f).2) := by
  cases s
  unfold processLine
  dsimp only
  split
  · rfl
  · split
    · split <;> rfl
    · split
      · rfl
      · split <;> rfl

theorem drainLines_none (pend : Str) (s : Session) (now : ℚ)
    (h : splitFirstNL pend = none) :
    drainLines pend s now = (s, []) := by
  rw [drainLines]
  split
  · rfl
  · rename_i lp heq
    rw [h] at heq
    cases heq

theorem drainLines_some (pend : Str) (s : Session) (now : ℚ) (lp : Str × Str)
    (h : splitFirstNL pend = some lp) :
    drainLines pend s now =
      ((drainLines lp.2 (processLine {s with pending := lp.2} now (pyRStrip [ '\x0d' ] lp.1) false).1 now).1,
       (processLine {s with pending := lp.2} now (pyRStrip [ '\x0d' ] lp.1) false).2 ++
       (drainLines lp.2 (processLine {s with pending := lp.2} now (pyRStrip [ '\x0d' ] lp.1) false).1 now).2) := by
  rw [drainLines]
  split
  · rename_i heq
    rw [h] at heq
    cases heq
  · rename_i lq heq
    rw [h] at heq
    injection heq with heq
    subst heq
    rfl

theorem processLinesFold_pending (now : ℚ) (ls : List Str) :
    ∀ s : Session, (processLinesFold now s ls).1.pending = s.pending := by
  induction ls with
  | nil => intro s; rfl
  | cons l t ih =>
    intro s
    simp only [processLinesFold]
    rw [ih, processLine_pending]

theorem processLinesFold_set_pending (now : ℚ) (ls : List Str) :
    ∀ (s : Session) (x : Str),
      processLinesFold now {s with pending := x} ls =
        ({(processLinesFold now s ls).1 with pending := x},
         (processLinesFold now s ls).2) := by
  induction ls with
  | nil => intro s x; rfl
  | cons l t ih =>
    intro s x
    simp only [processLinesFold]
    rw [processLine_set_pending, ih]

theorem splitParts_of_none {u : Str} (h : splitFirstNL u = none) :
    splitParts u = ([], u) := by
  induction u with
  | nil => rfl
  | cons c t ih =>
    simp only [splitFirstNL] at h
    by_cases hc : (c == '\n') = true
    · rw [if_pos hc] at h; cases h
    · rw [if_neg hc] at h
      have ht : splitFirstNL t = none := by
        cases hmap : splitFirstNL t with
        | none => rfl
        | some q => rw [hmap] at h; simp at h
      have h2 := ih ht
      simp only [splitParts]
      rw [if_neg hc, h2]

theorem splitParts_of_some {u : Str} {p : Str × Str} (h : splitFirstNL u = some p) :
    splitParts u = (p.1 :: (splitParts p.2).1, (splitParts p.2).2) := by
  induction u generalizing p with
  | nil => simp [splitFirstNL] at h
  | cons c t ih =>
    simp only [splitFirstNL] at h
    by_cases hc : (c == '\n') = true
    · rw [if_pos hc] at h
      injection h with h
      rw [← h]
      simp only [splitParts]
      rw [if_pos hc]
    · rw [if_neg hc] at h
      cases hmap : splitFirstNL t with
      | none => rw [hmap] at h; simp at h
      | some q =>
        rw [hmap] at h
        simp only [Option.map_some'] at h
        injection h with h
        rw [← h]
        have ihq := ih hmap
        simp only [splitParts]
        rw [if_neg hc, ihq]

theorem splitFirstNL_rest_lt :
    ∀ (u : Str) (p : Str × Str), splitFirstNL u = some p → p.2.length < u.length := by
  intro u
  induction u with
  | nil => intro p hp; simp [splitFirstNL] at hp
  | cons c t ih =>
    intro p hp
    simp only [splitFirstNL] at hp
    by_cases hc : (c == '\n') = true
    · rw [if_pos hc] at hp
      injection hp with hp
      rw [← hp]
      simp
    · rw [if_neg hc] at hp
      cases hmap : splitFirstNL t with
      | none => rw [hmap] at hp; simp at hp
      | some q =>
        rw [hmap] at hp
        simp only [Option.map_some'] at hp
        injection hp with hp
        have hq := ih q hmap
        rw [← hp]
        simp only [List.length_cons]
        omega

theorem drainLines_eq (now : ℚ) : ∀ (n : ℕ) (pend : Str) (s : Session),
    pend.length ≤ n → s.pending = pend →
    drainLines pend s now =
      processLinesFold now {s with pending := (splitParts pend).2} (splitParts pend).1 := by
  intro n
  induction n with
  | zero =>
    intro pend s hlen hs
    have hp : pend = [] := List.eq_nil_of_length_eq_zero (Nat.le_zero.mp hlen)
    subst hp
    rw [drainLines_none [] s now rfl]
    simp only [splitParts, processLinesFold]
    rw [← hs]
  | succ n ih =>
    intro pend s hlen hs
    cases hsp : splitFirstNL pend with
    | none =>
      rw [drainLines_none _ _ _ hsp, splitParts_of_none hsp]
      simp only [processLinesFold]
      rw [← hs]
    | some lp =>
      rw [drainLines_some _ _ _ _ hsp, splitParts_of_some hsp]
      simp only [processLinesFold]
      have hlplen : lp.2.length ≤ n := by
        have := splitFirstNL_rest_lt pend lp hsp
        omega
      have hrec := ih lp.2 (processLine {s with pending := lp.2} now (pyRStrip [ '\r' ] lp.1) false).1
        hlplen (by rw [processLine_pending])
      rw [hrec]
      simp only [processLine_set_pending, processLinesFold_set_pending]

theorem processChunk_split_spec (s : Session) (now : ℚ) (chunk : Str) :
    processChunk s now chunk =
      (let parts := splitParts (s.pending ++ chunk)
       let folded := processLinesFold now
         {s with pending := parts.2, last_output_time := now} parts.1
       let p := pyStrip parts.2
       if !p.isEmpty && (endsWithColonHit p || promptKeywordHit p || onlyDigitsHit p) then
         (({(processLine folded.1 now p true).1 with pending := []}),
          folded.2 ++ (processLine folded.1 now p true).2)
       else (folded.1, folded.2)) := by
  unfold processChunk
  dsimp only
  rw [drainLines_eq now (s.pending ++ chunk).length (s.pending ++ chunk)
      {s with pending := s.pending ++ chunk, last_output_time := now} (le_refl _) rfl]
  rw [processLinesFold_pending]

theorem rfindNL_some_spec (t : Str) :
    ∀ (e i : ℕ), rfindNL t e = some i →
      i < e ∧ t.getD i ' ' = '\n' ∧ ∀ j, i < j → j < e → t.getD j ' ' ≠ '\n' := by
  intro e
  induction e with
  | zero => intro i h; cases h
  | succ e ih =>
    intro i h
    simp only [rfindNL] at h
    by_cases hc : (t.getD e ' ' == '\n') = true
    · rw [if_pos hc] at h
      injection h with h
      subst h
      refine ⟨Nat.lt_succ_self _, by simpa using hc, ?_⟩
      intro j h1 h2
      omega
    · rw [if_neg hc] at h
      obtain ⟨h1, h2, h3⟩ := ih i h
      refine ⟨Nat.lt_succ_of_lt h1, h2, ?_⟩
      intro j hj1 hj2
      by_cases hje : j = e
      · subst hje
        simpa using hc
      · exact h3 j hj1 (by omega)

theorem rfindNL_none_spec (t : Str) :
    ∀ (e : ℕ), rfindNL t e = none → ∀ j, j < e → t.getD j ' ' ≠ '\n' := by
  intro e
  induction e with
  | zero => intro h j hj; omega
  | succ e ih =>
    intro h j hj
    simp only [rfindNL] at h
    by_cases hc : (t.getD e ' ' == '\n') = true
    · rw [if_pos hc] at h; cases h
    · rw [if_neg hc] at h
      by_cases hje : j = e
      · subst hje; simpa using hc
      · exact ih h j (by omega)

theorem chunkEnd_le_length (t : Str) : chunkEnd t ≤ t.length := by
  unfold chunkEnd
  dsimp only
  split
  · rename_i hlt
    split
    · rename_i i heq
      obtain ⟨h1, _, _⟩ := rfindNL_some_spec t _ i heq
      split
      · omega
      · exact Nat.min_le_left _ _
    · exact Nat.min_le_left _ _
  · exact Nat.min_le_left _ _

theorem chunkEnd_le_max (t : Str) : chunkEnd t ≤ TG_MAX := by
  unfold chunkEnd
  dsimp only
  split
  · rename_i hlt
    split
    · rename_i i heq
      obtain ⟨h1, _, _⟩ := rfindNL_some_spec t _ i heq
      have := Nat.min_le_right t.length TG_MAX
      split
      · omega
      · exact Nat.min_le_right _ _
    · exact Nat.min_le_right _ _
  · exact Nat.min_le_right _ _

theorem chunkEnd_pos (t : Str) (h : 0 < t.length) : 0 < chunkEnd t := by
  unfold chunkEnd
  dsimp only
  have he0 : 0 < min t.length TG_MAX := by
    apply Nat.lt_min.mpr
    exact ⟨h, by norm_num [TG_MAX]⟩
  split
  · split
    · split
      · omega
      · exact he0
    · exact he0
  · exact he0

theorem send_chunks_nil : send_long_message_chunks [] = [] := by
  rw [send_long_message_chunks]
  rfl

theorem send_chunks_join : ∀ (n : ℕ) (t : Str), t.length ≤ n →
    (send_long_message_chunks t).flatten = t := by
  intro n
  induction n with
  | zero =>
    intro t hlen
    have ht : t = [] := List.eq_nil_of_length_eq_zero (Nat.le_zero.mp hlen)
    subst ht
    rw [send_chunks_nil]
    rfl
  | succ n ih =>
    intro t hlen
    by_cases h0 : t.length = 0
    · have ht : t = [] := List.eq_nil_of_length_eq_zero h0
      subst ht
      rw [send_chunks_nil]
      rfl
    · rw [send_long_message_chunks, dif_neg h0]
      simp only [List.flatten_cons]
      rw [ih (t.drop (chunkEnd t))
          (by
            simp only [List.length_drop]
            have := chunkEnd_pos t (Nat.pos_of_ne_zero h0)
            omega)]
      exact List.take_append_drop _ t

theorem send_chunks_bounds : ∀ (n : ℕ) (t : Str), t.length ≤ n →
    ∀ c ∈ send_long_message_chunks t, c.length ≤ TG_MAX ∧ c ≠ [] := by
  intro n
  induction n with
  | zero =>
    intro t hlen c hc
    have ht : t = [] := List.eq_nil_of_length_eq_zero (Nat.le_zero.mp hlen)
    subst ht
    rw [send_chunks_nil] at hc
    cases hc
  | succ n ih =>
    intro t hlen c hc
    by_cases h0 : t.length = 0
    · have ht : t = [] := List.eq_nil_of_length_eq_zero h0
      subst ht
      rw [send_chunks_nil] at hc
      cases hc
    · rw [send_long_message_chunks, dif_neg h0] at hc
      rcases List.mem_cons.mp hc with hc1 | hc2
      · subst hc1
        constructor
        · simp only [List.length_take]
          have := chunkEnd_le_max t
          omega
        · have hpos : 0 < (t.take (chunkEnd t)).length := by
            simp only [List.length_take]
            have := chunkEnd_pos t (Nat.pos_of_ne_zero h0)
            have := Nat.pos_of_ne_zero h0
            omega
          exact List.ne_nil_of_length_pos hpos
      · exact ih (t.drop (chunkEnd t))
          (by
            simp only [List.length_drop]
            have := chunkEnd_pos t (Nat.pos_of_ne_zero h0)
            omega) c hc2

/-- i is the last line-feed position strictly below e in t. -/

theorem chunkEnd_boundary (u : Str) (hu : TG_MAX < u.length)
    (i : ℕ) (hi0 : 0 < i) (hiM : i < TG_MAX) (hinl : u.getD i ' ' = '\n') :
    0 < chunkEnd u - 1 ∧ IsLastNLIdx u TG_MAX (chunkEnd u - 1) := by
  have he0 : min u.length TG_MAX = TG_MAX := Nat.min_eq_right (Nat.le_of_lt hu)
  have hlt : min u.length TG_MAX < u.length := by omega
  unfold chunkEnd
  dsimp only
  rw [he0] at hlt ⊢
  rw [if_pos hu]
  cases hr : rfindNL u TG_MAX with
  | none => exact absurd hinl (rfindNL_none_spec u TG_MAX hr i hiM)
  | some m =>
    obtain ⟨hmE, hmNL, hmax⟩ := rfindNL_some_spec u TG_MAX m hr
    have him : i ≤ m := by
      by_contra hmi
      exact (hmax i (by omega) hiM) hinl
    have hm0 : 0 < m := by omega
    dsimp only
    rw [if_pos hm0]
    refine ⟨by omega, ⟨by omega, by simpa using hmNL, ?_⟩⟩
    intro j hj1 hj2
    exact hmax j (by omega) hj2

theorem chunks_small (t : Str) (h0 : t ≠ []) (hlen : t.length ≤ TG_MAX) :
    send_long_message_chunks t = [t] := by
  have h0l : ¬ t.length = 0 := by
    intro hl
    exact h0 (List.eq_nil_of_length_eq_zero hl)
  have hce : chunkEnd t = t.length := by
    unfold chunkEnd
    dsimp only
    have hm : min t.length TG_MAX = t.length := Nat.min_eq_left hlen
    rw [hm, if_neg (lt_irrefl _)]
  rw [send_long_message_chunks, dif_neg h0l, hce]
  simp only [List.take_length, List.drop_length]
  rw [send_chunks_nil]

theorem find?_first {α : Type} (l : List α) (p : α → Bool) :
    ∀ (i : ℕ) (hi : i < l.length), p (l.get ⟨i, hi⟩) = true →
    (∀ (j : ℕ) (hj : j < l.length), j < i → p (l.get ⟨j, hj⟩) = false) →
    l.find? p = some (l.get ⟨i, hi⟩) := by
  induction l with
  | nil => intro i hi; exact absurd hi (Nat.not_lt_zero i)
  | cons a t ih =>
    intro i hi hp hprev
    cases i with
    | zero =>
      rw [show (a :: t).get ⟨0, hi⟩ = a from rfl] at hp ⊢
      rw [List.find?_cons_of_pos _ hp]
    | succ i =>
      have hpa : p a = false := hprev 0 (by simp) (by omega)
      rw [List.find?_cons_of_neg _ (by simp [hpa])]
      rw [show (a :: t).get ⟨i + 1, hi⟩ = t.get ⟨i, by simpa using hi⟩ from rfl]
      exact ih i _ (by simpa using hp)
        (fun j hj hji => by simpa using hprev (j + 1) (by simpa using hj) (by omega))

theorem flush_clears (s : Session) :
    (flush_buffer_and_menu s).1.buffer_lines = [] ∧
    (flush_buffer_and_menu s).1.menu_items = [] := by
  unfold flush_buffer_and_menu
  dsimp only
  split
  · rename_i h
    obtain ⟨h1, h2⟩ := h
    exact ⟨List.isEmpty_iff.mp h1, List.isEmpty_iff.mp h2⟩
  · split
    · exact ⟨rfl, rfl⟩
    · split
      · exact ⟨rfl, rfl⟩
      · exact ⟨rfl, rfl⟩


/-- Claim C4 (amended): normalize_choice first strips surrounding whitespace;
on the stripped code it maps "01".."09" to "1".."9", preserves "00" verbatim,
and returns every other stripped code unchanged (in particular "10" and "0"
pass through). -/
theorem c4_theorem (num : Str) :
    (pyStrip num = ("00").toList → normalize_choice num = ("00").toList) ∧
    (pyStrip num = ("01").toList → normalize_choice num = ("1").toList) ∧
    (pyStrip num = ("02").toList → normalize_choice num = ("2").toList) ∧
    (pyStrip num = ("03").toList → normalize_choice num = ("3").toList) ∧
    (pyStrip num = ("04").toList → normalize_choice num = ("4").toList) ∧
    (pyStrip num = ("05").toList → normalize_choice num = ("5").toList) ∧
    (pyStrip num = ("06").toList → normalize_choice num = ("6").toList) ∧
    (pyStrip num = ("07").toList → normalize_choice num = ("7").toList) ∧
    (pyStrip num = ("08").toList → normalize_choice num = ("8").toList) ∧
    (pyStrip num = ("09").toList → normalize_choice num = ("9").toList) ∧
    (¬ ((pyStrip num).length = 2 ∧ (pyStrip num).headD ' ' = '0') →
      normalize_choice num = pyStrip num) ∧
    ((pyStrip num).length = 2 → (pyStrip num).headD ' ' = '0' →
      ¬ (((pyStrip num).getD 1 ' ').isDigit = true) → normalize_choice num = pyStrip num) ∧
    normalize_choice (("10").toList) = ("10").toList ∧
    normalize_choice (("0").toList) = ("0").toList := by
  refine ⟨?_, ?_, ?_, ?_, ?_, ?_, ?_, ?_, ?_, ?_, ?_, ?_, by decide, by decide⟩
  case _ => intro h; unfold normalize_choice; dsimp only; rw [h]; decide
  case _ => intro h; unfold normalize_choice; dsimp only; rw [h]; decide
  case _ => intro h; unfold normalize_choice; dsimp only; rw [h]; decide
  case _ => intro h; unfold normalize_choice; dsimp only; rw [h]; decide
  case _ => intro h; unfold normalize_choice; dsimp only; rw [h]; decide
  case _ => intro h; unfold normalize_choice; dsimp only; rw [h]; decide
  case _ => intro h; unfold normalize_choice; dsimp only; rw [h]; decide
  case _ => intro h; unfold normalize_choice; dsimp only; rw [h]; decide
  case _ => intro h; unfold normalize_choice; dsimp only; rw [h]; decide
  case _ => intro h; unfold normalize_choice; dsimp only; rw [h]; decide
  case _ =>
    intro h
    unfold normalize_choice
    dsimp only
    have h00 : ¬ (pyStrip num = ("00").toList) := by
      intro he
      apply h
      rw [he]
      exact ⟨rfl, rfl⟩
    rw [if_neg h00, if_neg h]
  case _ =>
    intro hlen hhead hdig
    unfold normalize_choice
    dsimp only
    have h00 : ¬ (pyStrip num = ("00").toList) := by
      intro he
      rw [he] at hdig
      exact hdig (by decide)
    obtain ⟨a, b, hab⟩ := List.length_eq_two.mp hlen
    have hnone : pyParseNat (pyStrip num) = none := by
      rw [hab]
      rw [hab] at hdig
      unfold pyParseNat
      rw [if_neg]
      have hb : b.isDigit = false := by
        simpa [List.getD] using hdig
      simp [hb]
    rw [if_neg h00, if_pos ⟨hlen, hhead⟩, hnone]

/-- Claim C4 counterexample: " 10 " is neither "00" nor a leading-zero code
"01".."09", yet normalize_choice returns "10" rather than the input unchanged:
surrounding whitespace is stripped, refuting the claim that every other code
is returned unchanged. -/
theorem c4_counterexample :
    normalize_choice ((" 10 ").toList) ≠ (" 10 ").toList ∧
    normalize_choice ((" 10 ").toList) = ("10").toList ∧
    (" 10 ").toList ≠ ("00").toList ∧
    (" 10 ").toList ∉ [("01").toList, ("02").toList, ("03").toList, ("04").toList,
      ("05").toList, ("06").toList, ("07").toList, ("08").toList, ("09").toList] := by
  decide


/-- Instance of claim C4 at the concrete input " 01 ". -/
theorem c4_witness :
    pyStrip ((" 01 ").toList) = ("01").toList ∧
    normalize_choice ((" 01 ").toList) = ("1").toList :=
  ⟨by decide, (c4_theorem ((" 01 ").toList)).2.1 (by decide)⟩

/-- Claim C5 (amended): stop_tool, when a process is running, requests
graceful termination (forcing a kill when the child does not exit within the
grace period), cancels the reader and flusher tasks and clears the process
and input-writer handles, and reports the stop; when nothing is running it
reports informationally, never as an error, and leaves the session state
entirely unchanged — in that case the tasks are not cancelled and the handles
are not cleared. -/
theorem c5_theorem (s : Session) (g : Bool) :
    (s.is_running = true →
      stop_tool s g =
        (cancel_tasks s,
         (if g then [StopAction.terminate] else [StopAction.terminate, StopAction.kill]),
         BotMsg.stopped) ∧
      (stop_tool s g).1.reader_task = false ∧
      (stop_tool s g).1.flusher_task = false ∧
      (stop_tool s g).1.proc = none ∧
      (stop_tool s g).1.stdin_writer = false) ∧
    (s.is_running = false → stop_tool s g = (s, [], BotMsg.infoNoTool)) := by
  constructor
  · intro hr
    unfold stop_tool
    rw [if_pos hr]
    exact ⟨rfl, rfl, rfl, rfl, rfl⟩
  · intro hn
    unfold stop_tool
    rw [if_neg (by rw [hn]; exact Bool.false_ne_true)]

theorem c5_witness :
    startedSession.is_running = true ∧
    stop_tool startedSession true =
      (cancel_tasks startedSession, [StopAction.terminate], BotMsg.stopped) :=
  ⟨by decide, by
    have h := ((c5_theorem startedSession true).1 (by decide)).1
    simpa using h⟩

/-- Claim C5 counterexample: on a session whose process has exited
(returncode set) while its task and writer handles are still present,
stop_tool reports "no tool running" and cancels and clears nothing,
refuting the claim that stop always cancels the tasks and clears the
handles. -/
theorem c5_counterexample :
    deadSession.is_running = false ∧
    deadSession.reader_task = true ∧
    deadSession.proc ≠ none ∧
    (stop_tool deadSession true).1.reader_task = true ∧
    (stop_tool deadSession true).1.flusher_task = true ∧
    (stop_tool deadSession true).1.proc ≠ none ∧
    (stop_tool deadSession true).1.stdin_writer = true ∧
    (stop_tool deadSession true).2.2 = BotMsg.infoNoTool := by
  decide

/-- Claim C6: a line that case-insensitively contains a press-enter or
press-any-key-to-continue pattern causes exactly one line-terminator write to
the child's stdin (the writer being present) and leaves the session state
unchanged — in particular the line is never appended to the buffered plain
lines or menu entries, so it can never appear in flushed text. -/
theorem c6_theorem (s : Session) (now : ℚ) (line : Str) (f : Bool)
    (hw : s.stdin_writer = true)
    (hp : (strContains (pyLower line) (("press enter to continue").toList) ||
           strContains (pyLower line) (("press any key to continue").toList)) = true) :
    processLine s now line f = (s, [[ '\n' ]]) := by
  have hne : line.isEmpty = false := by
    cases line with
    | nil => exact absurd hp (by decide)
    | cons c t => rfl
  unfold processLine
  rw [if_neg (by rw [hne]; exact Bool.false_ne_true)]
  dsimp only
  rw [if_pos hp, if_pos hw]


theorem c6_witness :
    startedSession.stdin_writer = true ∧
    (strContains (pyLower c6Line) (("press enter to continue").toList) ||
     strContains (pyLower c6Line) (("press any key to continue").toList)) = true ∧
    processLine startedSession 2 c6Line false = (startedSession, [[ '\n' ]]) :=
  ⟨rfl, by decide, c6_theorem startedSession 2 c6Line false rfl (by decide)⟩

/-- Claim C8 (amended): routing user input requires a running process with a
live input writer; on success the payload plus a line terminator is written
to the child's stdin and the awaiting-input flag and prompt bookkeeping are
cleared; on write failure the session accounting is not mutated further, and
a delivery failure is reported for free text, while a failed selection-code
write is silently swallowed. -/
theorem c8_theorem (s : Session) (txt num : Str) :
    ((s.is_running && s.stdin_writer) = true →
      text_handler s txt true =
        ({s with awaiting_input := false, last_prompt_time := none, input_prompt_text := none},
         [pyStrip txt ++ [ '\n' ]], []) ∧
      menu_choice_handler s num true =
        ({s with awaiting_input := false, last_prompt_time := none, input_prompt_text := none},
         [num ++ [ '\n' ]], []) ∧
      text_handler s txt false = (s, [], [BotMsg.deliveryFailed]) ∧
      menu_choice_handler s num false = (s, [], [])) ∧
    ((s.is_running && s.stdin_writer) = false →
      text_handler s txt true = (s, [], [BotMsg.toolNotRunning]) ∧
      text_handler s txt false = (s, [], [BotMsg.toolNotRunning]) ∧
      menu_choice_handler s num true = (s, [], []) ∧
      menu_choice_handler s num false = (s, [], [])) := by
  constructor
  · intro h
    unfold text_handler menu_choice_handler
    rw [h]
    exact ⟨rfl, rfl, rfl, rfl⟩
  · intro h
    unfold text_handler menu_choice_handler
    rw [h]
    exact ⟨rfl, rfl, rfl, rfl⟩

/-- Claim C8 counterexample: a failed stdin write of selection code "5" on a
running session produces no delivery-failure report and no chat message at
all (the callback handler swallows the exception), refuting the claim that a
delivery failure is reported for every kind of routed input. -/
theorem c8_counterexample :
    (startedSession.is_running && startedSession.stdin_writer) = true ∧
    menu_choice_handler startedSession (("5").toList) false = (startedSession, [], []) ∧
    BotMsg.deliveryFailed ∉ (menu_choice_handler startedSession (("5").toList) false).2.2 := by
  decide

theorem c8_witness :
    (startedSession.is_running && startedSession.stdin_writer) = true ∧
    text_handler startedSession (("halo").toList) false =
      (startedSession, [], [BotMsg.deliveryFailed]) ∧
    text_handler startedSession (("halo").toList) true =
      ({startedSession with awaiting_input := false, last_prompt_time := none, input_prompt_text := none},
       [pyStrip (("halo").toList) ++ [ '\n' ]], []) :=
  ⟨rfl,
   ((c8_theorem startedSession (("halo").toList) (("5").toList)).1 rfl).2.2.1,
   ((c8_theorem startedSession (("halo").toList) (("5").toList)).1 rfl).1⟩

/-- Claim C2: a flusher wake-up (at clock t0 + (k+1) * FLUSHER_INTERVAL) never
flushes while the elapsed time since the last received output is below the
idle threshold BUFFER_FLUSH_IDLE = 5, and once buffered lines or menu entries
are non-empty and the threshold has elapsed, the wake-up performs the flush,
draining both buffers. -/
theorem c2_theorem (s : Session) (t0 : ℚ) (k : ℕ) :
    (flusherCheckTime t0 k - s.last_output_time < BUFFER_FLUSH_IDLE →
      flusher_pass s (flusherCheckTime t0 k) = (s, none)) ∧
    ((s.buffer_lines ≠ [] ∨ s.menu_items ≠ []) →
      BUFFER_FLUSH_IDLE ≤ flusherCheckTime t0 k - s.last_output_time →
      flusher_pass s (flusherCheckTime t0 k) = flush_buffer_and_menu s ∧
      (flusher_pass s (flusherCheckTime t0 k)).1.buffer_lines = [] ∧
      (flusher_pass s (flusherCheckTime t0 k)).1.menu_items = []) := by
  constructor
  · intro hlt
    unfold flusher_pass
    split
    · rw [if_neg (not_le.mpr hlt)]
    · rfl
  · intro hbuf hge
    have h1 : flusher_pass s (flusherCheckTime t0 k) = flush_buffer_and_menu s := by
      unfold flusher_pass
      rw [if_pos hbuf, if_pos hge]
    refine ⟨h1, ?_, ?_⟩
    · rw [h1]
      exact (flush_clears s).1
    · rw [h1]
      exact (flush_clears s).2


theorem c2_witness :
    (c2Sess.buffer_lines ≠ [] ∨ c2Sess.menu_items ≠ []) ∧
    BUFFER_FLUSH_IDLE ≤ flusherCheckTime (9 / 2) 0 - c2Sess.last_output_time ∧
    flusher_pass c2Sess (flusherCheckTime (9 / 2) 0) = flush_buffer_and_menu c2Sess ∧
    (flusher_pass c2Sess (flusherCheckTime (9 / 2) 0)).1.buffer_lines = [] :=
  ⟨Or.inl (by decide),
   by norm_num [flusherCheckTime, FLUSHER_INTERVAL, BUFFER_FLUSH_IDLE, c2Sess, startedSession],
   ((c2_theorem c2Sess (9 / 2) 0).2 (Or.inl (by decide))
     (by norm_num [flusherCheckTime, FLUSHER_INTERVAL, BUFFER_FLUSH_IDLE, c2Sess, startedSession])).1,
   ((c2_theorem c2Sess (9 / 2) 0).2 (Or.inl (by decide))
     (by norm_num [flusherCheckTime, FLUSHER_INTERVAL, BUFFER_FLUSH_IDLE, c2Sess, startedSession])).2.1⟩

/-- Claim C7: find_back_num resolves the back code by this priority chain:
the code of the first entry whose label contains a back/return/parent keyword
(kemb/kembali/utama/back); failing that, the first entry coded "00" or "0";
failing that, the first entry coded "99"; failing that, the first entry's
code; and the fixed default "99" for an empty list. -/
theorem c7_theorem (items : List (Str × Str)) :
    (items = [] → find_back_num items = ("99").toList) ∧
    (∀ (i : ℕ) (hi : i < items.length),
      isBackLabel (items.get ⟨i, hi⟩) = true →
      (∀ (j : ℕ) (hj : j < items.length), j < i → isBackLabel (items.get ⟨j, hj⟩) = false) →
      find_back_num items = (items.get ⟨i, hi⟩).1) ∧
    ((∀ p ∈ items, isBackLabel p = false) →
      ∀ (i : ℕ) (hi : i < items.length),
        isZeroCode (items.get ⟨i, hi⟩) = true →
        (∀ (j : ℕ) (hj : j < items.length), j < i → isZeroCode (items.get ⟨j, hj⟩) = false) →
        find_back_num items = (items.get ⟨i, hi⟩).1) ∧
    ((∀ p ∈ items, isBackLabel p = false) → (∀ p ∈ items, isZeroCode p = false) →
      ∀ (i : ℕ) (hi : i < items.length),
        isCode99 (items.get ⟨i, hi⟩) = true →
        (∀ (j : ℕ) (hj : j < items.length), j < i → isCode99 (items.get ⟨j, hj⟩) = false) →
        find_back_num items = (items.get ⟨i, hi⟩).1) ∧
    ((∀ p ∈ items, isBackLabel p = false) → (∀ p ∈ items, isZeroCode p = false) →
      (∀ p ∈ items, isCode99 p = false) →
      ∀ (q : Str × Str) (rest : List (Str × Str)), items = q :: rest →
        find_back_num items = q.1) := by
  refine ⟨?_, ?_, ?_, ?_, ?_⟩
  · intro h
    subst h
    rfl
  · intro i hi hp hprev
    unfold find_back_num
    rw [find?_first items isBackLabel i hi hp hprev]
  · intro hnb i hi hp hprev
    unfold find_back_num
    rw [List.find?_eq_none.mpr (by intro x hx; simp [hnb x hx])]
    rw [find?_first items isZeroCode i hi hp hprev]
  · intro hnb hnz i hi hp hprev
    unfold find_back_num
    rw [List.find?_eq_none.mpr (by intro x hx; simp [hnb x hx])]
    rw [List.find?_eq_none.mpr (by intro x hx; simp [hnz x hx])]
    rw [find?_first items isCode99 i hi hp hprev]
  · intro hnb hnz hn9 q rest heq
    unfold find_back_num
    rw [List.find?_eq_none.mpr (by intro x hx; simp [hnb x hx])]
    rw [List.find?_eq_none.mpr (by intro x hx; simp [hnz x hx])]
    rw [List.find?_eq_none.mpr (by intro x hx; simp [hn9 x hx])]
    rw [heq]


theorem c7_witness :
    isBackLabel (c7Items.get ⟨1, by decide⟩) = true ∧
    isZeroCode (c7Items.get ⟨0, by decide⟩) = true ∧
    find_back_num c7Items = ("9").toList :=
  ⟨by decide, by decide,
   by
    have h := (c7_theorem c7Items).2.1 1 (by decide) (by decide)
      (by
        intro j hj hji
        have hj0 : j = 0 := by omega
        subst hj0
        exact (by decide : isBackLabel (c7Items.get ⟨0, by decide⟩) = false))
    simpa using h⟩

/-- Claim C9 (amended): the inline keyboard applies normalization
symmetrically — the code shown on a menu button and the code transmitted in
its callback payload are both the normalized raw code, so displayed and
transmitted values always match — while the textual menu block of the flushed
combined message renders the raw, un-normalized code. -/
theorem c9_theorem (num label : Str) :
    (menu_button num label).1.take (normalize_choice num).length = normalize_choice num ∧
    (menu_button num label).2 = ("menu_choice|").toList ++ normalize_choice num ∧
    (menu_button num label).2.drop (("menu_choice|").toList).length = normalize_choice num ∧
    menuLine (num, label) = num ++ (". ").toList ++ label := by
  refine ⟨?_, rfl, ?_, rfl⟩
  · show ((normalize_choice num ++ (". ").toList ++ truncLabel label).take
      (normalize_choice num).length) = normalize_choice num
    rw [List.append_assoc]
    exact List.take_left _ _
  · show ((("menu_choice|").toList ++ normalize_choice num).drop
      (("menu_choice|").toList).length) = normalize_choice num
    exact List.drop_left _ _



/-- Claim C9 counterexample: with menu entry ("01", "Foo"), the flushed
combined message renders the menu block line as "01. Foo" (raw code), while
the button shows "1. Foo" and transmits "1": the rendered menu block does not
display the normalized form, refuting the claim that the displayed value in
the rendered block equals the normalized code. -/
theorem c9_counterexample :
    (flush_buffer_and_menu c9Sess).2 = some (menuHeader ++ ("01. Foo").toList, true) ∧
    normalize_choice (("01").toList) = ("1").toList ∧
    menuHeader ++ ("01. Foo").toList ≠ menuHeader ++ ("1. Foo").toList ∧
    (menu_button (("01").toList) (("Foo").toList)).1 = ("1. Foo").toList ∧
    (menu_button (("01").toList) (("Foo").toList)).2 = ("menu_choice|1").toList := by
  decide

/-- Claim C10: when the menu buffer is empty and the buffered plain lines
join-then-strip to the empty string, the flush still leaves both buffers
empty and delivers no outbound message; in particular flushing with both
buffers empty produces no outbound message. -/
theorem c10_theorem (s : Session) (h1 : s.menu_items = [])
    (h2 : pyStrip (joinNL s.buffer_lines) = []) :
    flush_buffer_and_menu s = ({s with buffer_lines := [], menu_items := []}, none) := by
  unfold flush_buffer_and_menu
  dsimp only
  split
  · rename_i h
    obtain ⟨hb, hm⟩ := h
    have hbl : s.buffer_lines = [] := List.isEmpty_iff.mp hb
    cases s
    simp_all
  · rw [h2, h1]
    rfl


theorem c10_witness :
    c10Sess.menu_items = [] ∧
    pyStrip (joinNL c10Sess.buffer_lines) = [] ∧
    flush_buffer_and_menu c10Sess = ({c10Sess with buffer_lines := [], menu_items := []}, none) :=
  ⟨rfl, by decide, c10_theorem c10Sess rfl (by decide)⟩

/-- Claim C1 (amended): feeding a byte chunk to the reader appends the decoded
text to the partial accumulator, extracts and classifies each newline-terminated
complete line in arrival order, and leaves the unterminated remainder buffered
unless its stripped form matches the partial-prompt heuristic (ends with a
colon, contains a prompt keyword, or is a 1-8 digit token), in which case it is
classified immediately as a partial prompt and the accumulator is cleared; in
particular feeding "a\nb\nc" to a fresh session yields complete plain lines
["a", "b"] and a retained partial "c". -/
theorem c1_theorem (s : Session) (now : ℚ) (chunk : Str) :
    processChunk s now chunk =
      (let parts := splitParts (s.pending ++ chunk)
       let folded := processLinesFold now
         {s with pending := parts.2, last_output_time := now} parts.1
       let p := pyStrip parts.2
       if !p.isEmpty && (endsWithColonHit p || promptKeywordHit p || onlyDigitsHit p) then
         (({(processLine folded.1 now p true).1 with pending := []}),
          folded.2 ++ (processLine folded.1 now p true).2)
       else (folded.1, folded.2)) ∧
    (processChunk startedSession 1 (("a\nb\nc").toList)).1.buffer_lines
      = [("a").toList, ("b").toList] ∧
    (processChunk startedSession 1 (("a\nb\nc").toList)).1.pending = ("c").toList ∧
    (processChunk startedSession 1 (("a\nb\nc").toList)).1.menu_items = [] :=
  ⟨processChunk_split_spec s now chunk,
   by rw [processChunk_split_spec]; decide,
   by rw [processChunk_split_spec]; decide,
   by rw [processChunk_split_spec]; decide⟩

/-- Claim C1 counterexample: after feeding the chunk "pin" (no newline), the
unterminated remainder does not stay buffered as the claim requires: the
partial-prompt heuristic consumes it, the accumulator is cleared and the text
is classified as an awaiting-input prompt line instead. -/
theorem c1_counterexample :
    (processChunk startedSession 1 (("pin").toList)).1.pending = [] ∧
    ("pin").toList ≠ ([] : Str) ∧
    (processChunk startedSession 1 (("pin").toList)).1.buffer_lines = [("pin").toList] ∧
    (processChunk startedSession 1 (("pin").toList)).1.awaiting_input = true := by
  refine ⟨?_, by decide, ?_, ?_⟩
  · rw [processChunk_split_spec]
    decide
  · rw [processChunk_split_spec]
    decide
  · rw [processChunk_split_spec]
    decide

/-- Claim C3: send_long_message splits a non-empty text into consecutive
chunks, each non-empty and of length at most TG_MAX = 3800, whose
concatenation is the original text; and whenever the remaining text overflows
the limit and a line feed occurs in the window after the chunk start, the
chunk ends right after the last such line feed (the last line boundary at or
before the limit). -/
theorem c3_theorem (t : Str) (hne : t ≠ []) (c : Str) (hc : c ∈ send_long_message_chunks t)
    (u : Str) (hu : TG_MAX < u.length)
    (i : ℕ) (hi0 : 0 < i) (hiM : i < TG_MAX) (hinl : u.getD i ' ' = '\n') :
    (send_long_message_chunks t).flatten = t ∧
    c.length ≤ TG_MAX ∧ c ≠ [] ∧
    0 < chunkEnd u - 1 ∧ IsLastNLIdx u TG_MAX (chunkEnd u - 1) := by
  obtain ⟨hb1, hb2⟩ := send_chunks_bounds t.length t (le_refl _) c hc
  obtain ⟨hc1, hc2⟩ := chunkEnd_boundary u hu i hi0 hiM hinl
  exact ⟨send_chunks_join t.length t (le_refl _), hb1, hb2, hc1, hc2⟩



theorem c3_witness :
    c3T ≠ [] ∧ c3T ∈ send_long_message_chunks c3T ∧ TG_MAX < c3U.length ∧
    (0 : ℕ) < 1 ∧ 1 < TG_MAX ∧ c3U.getD 1 ' ' = '\n' ∧
    (send_long_message_chunks c3T).flatten = c3T ∧ c3T.length ≤ TG_MAX ∧ c3T ≠ [] ∧
    0 < chunkEnd c3U - 1 ∧ IsLastNLIdx c3U TG_MAX (chunkEnd c3U - 1) := by
  have h1 : c3T ≠ [] := by decide
  have h2 : c3T ∈ send_long_message_chunks c3T := by
    rw [chunks_small c3T h1 (by decide)]
    exact List.mem_singleton_self _
  have h3 : TG_MAX < c3U.length := by
    show TG_MAX < (List.length ('a' :: '\n' :: List.replicate 3799 'b'))
    rw [List.length_cons, List.length_cons, List.length_replicate]
    norm_num [TG_MAX]
  have h6 : c3U.getD 1 ' ' = '\n' := rfl
  obtain ⟨g1, g2, g3, g4, g5⟩ :=
    c3_theorem c3T h1 c3T h2 c3U h3 1 (by decide) (by decide) h6
  exact ⟨h1, h2, h3, by decide, by decide, h6, g1, g2, g3, g4, g5⟩
